import Mathlib

/-!
Verification of the finnhub websocket client core (src/lib.rs): the bounded
per-symbol history cache (`TickerHistory`), the tracked-symbol list and session
state (`State`), and the message-processing step of the component
(`Model.update`), shallowly embedded from the Rust source.

Modelling conventions:
* `Symbol` and `ApiKey` are `String`; `Price` and `Volume` are `ℚ` (finite
  decimal feed values); timestamps are `ℤ` (epoch milliseconds).
* `HashMap Symbol (VecDeque TickerInfo)` becomes a function
  `String → Option (List TickerInfo)` — the code never iterates the map, so
  bucket order is irrelevant; `push_front` is `cons`, `pop_back` is `dropLast`.
* Side effects of one `update` call (websocket sends, dialog confirm/alert,
  console logs, storage persist) are reified as a `List Effect` returned next
  to the new model and the `ShouldRender` boolean.
* External inputs consumed during one call (the answer a `confirm` dialog
  returns, whether `WebSocketService::connect` succeeds) are passed in as an
  `Env`.
* `Vec::remove` panics on an out-of-range index, so `State.untrack_symbol`
  (and hence `Model.update`) returns an `Option`; `none` is the panic.
-/

namespace FinnhubWs

/-- One trade tick from the feed: `TickerInfo` in the source
(fields `s`, `p`, `v`, `t`). -/
structure TickerInfo where
  symbol : String
  price : ℚ
  volume : ℚ
  time : ℤ
deriving DecidableEq, Repr

/-- Outbound websocket frames (`Request` in the source). -/
inductive Request where
  | Subscribe (symbol : String)
  | Unsubscribe (symbol : String)
deriving DecidableEq, Repr

/-- Inbound websocket frames (`WsMessage` in the source). -/
inductive WsMessage where
  | Error (message : String)
  | Ping
  | Trade (data : List TickerInfo)
deriving DecidableEq, Repr

/-- The per-symbol bounded history cache (`TickerHistory` in the source).
The `HashMap` is modelled as a total function into `Option`. -/
structure TickerHistory where
  symbol_to_history : String → Option (List TickerInfo)

/-- `TickerHistory::MAX_HISTORY`. -/
def TickerHistory.MAX_HISTORY : Nat := 25

/-- `TickerHistory::new`. -/
def TickerHistory.new : TickerHistory := ⟨fun _ => none⟩

/-- `TickerHistory::get`. -/
def TickerHistory.get (h : TickerHistory) (s : String) : Option (List TickerInfo) :=
  h.symbol_to_history s

/-- `TickerHistory::insert`: push the tick to the front of its symbol's queue
(creating the queue when absent) and pop the back when the length exceeds
`MAX_HISTORY`. -/
def TickerHistory.insert (h : TickerHistory) (ticker_info : TickerInfo) : TickerHistory :=
  ⟨fun s =>
    if s = ticker_info.symbol then
      match h.symbol_to_history ticker_info.symbol with
      | some queue =>
          let queue := ticker_info :: queue
          some (if queue.length > TickerHistory.MAX_HISTORY then queue.dropLast else queue)
      | none => some [ticker_info]
    else h.symbol_to_history s⟩

/-- `TickerHistory::remove`. -/
def TickerHistory.remove (h : TickerHistory) (symbol : String) : TickerHistory :=
  ⟨fun s => if s = symbol then none else h.symbol_to_history s⟩

/-- The persisted session state (`State` in the source). -/
structure State where
  api_key : String
  tracked : List String
  history : TickerHistory

/-- `UntrackResult` in the source. -/
structure UntrackResult where
  is_last : Bool
  symbol : String
deriving DecidableEq, Repr

/-- `State::add_symbol` (`Vec::push`). -/
def State.add_symbol (st : State) (symbol : String) : State :=
  { st with tracked := st.tracked ++ [symbol] }

/-- `State::last_added` (`Vec::last`). -/
def State.last_added (st : State) : Option String :=
  st.tracked.getLast?

/-- `State::remove_last_added` (`Vec::pop`). -/
def State.remove_last_added (st : State) : State :=
  { st with tracked := st.tracked.dropLast }

/-- `State::untrack_symbol`: remove the entry at `idx` (`Vec::remove`, panic —
here `none` — when out of range), decide via `find?` whether any remaining
entry still equals the removed symbol, and purge the history when none does. -/
def State.untrack_symbol (st : State) (idx : Nat) : Option (UntrackResult × State) :=
  match st.tracked.get? idx with
  | none => none
  | some removed_symbol =>
      let tracked := st.tracked.eraseIdx idx
      let last_for_symbol := (tracked.find? (fun t => t == removed_symbol)).isNone
      let history := if last_for_symbol then st.history.remove removed_symbol else st.history
      some (⟨last_for_symbol, removed_symbol⟩,
            { st with tracked := tracked, history := history })

/-- `State::add_history`. -/
def State.add_history (st : State) (ticker_info : TickerInfo) : State :=
  { st with history := st.history.insert ticker_info }

/-- Observable side effects of one `update` call. -/
inductive Effect where
  | Send (r : Request)
  | Confirm (message : String)
  | Alert (message : String)
  | Persist
  | LogInfo (w : WsMessage)
  | LogError (message : String)
deriving DecidableEq, Repr

/-- The component state (`Model` in the source); the live websocket handle is
modelled by presence (`Option Unit`), and availability of `StorageService` by
a boolean fixed at creation. -/
structure Model where
  storage_available : Bool
  symbol_to_add : String
  state : State
  websocket_task : Option Unit

/-- External inputs consumed during one `update` call: the answer of the (at
most one) `confirm` dialog and the outcome of `WebSocketService::connect`. -/
structure Env where
  confirm_answer : Bool
  connect_ok : Bool
  connect_err : String

/-- `Msg` in the source; decode results arrive as `Except` (Rust `Result`). -/
inductive Msg where
  | ApiKeyUpdate (key : String)
  | UpdateSymbolToTrack (symbol : String)
  | TrackSymbol
  | ApiKeyConnect
  | ApiKeyDisconnect
  | UnTrackSymbolAtIdx (idx : Nat)
  | WsIncoming (data : Except String WsMessage)
  | WsOpened
  | WsDead
  | Nope

/-- The confirm-dialog text of the invalid-symbol recovery prompt. -/
def invalid_symbol_prompt (symbol : String) : String :=
  "Invalid symbol detected. Do you want to untrack the last added one: [" ++ symbol ++ "]"

/-- The confirm-dialog text shown when the websocket dies. -/
def ws_dead_prompt : String :=
  "The Websocket connection failed 😞\n\nThis might be because our API key is wrong, but if you were previously connected, you might want to try reconnecting?"

/-- The alert shown in the (dead-code) `WsOpened`-without-task branch. -/
def no_ws_alert : String :=
  "The no websocket connection despite it being open, wtf?"

/-- `Model::persist_state`: stores the state only when the storage service is
available. -/
def Model.persist_state (m : Model) : List Effect :=
  if m.storage_available then [Effect.Persist] else []

/-- `Model::connect_to_api`: on success the new task takes the slot and the
call returns `true`; on failure an alert is raised, `false` is returned, and
the model (in particular `websocket_task`) is left untouched. -/
def Model.connect_to_api (m : Model) (env : Env) : Model × Bool × List Effect :=
  if env.connect_ok then
    ({ m with websocket_task := some () }, true, [])
  else
    (m, false, [Effect.Alert env.connect_err])

/-- `Component::update` for `Model`, with side effects reified.
Returns `none` exactly where the Rust code panics (out-of-range untrack). -/
def Model.update (m : Model) (env : Env) (msg : Msg) : Option (Model × Bool × List Effect) :=
  match msg with
  | Msg.ApiKeyUpdate key =>
      let m2 : Model := { m with state := { m.state with api_key := key } }
      some (m2, true, m2.persist_state)
  | Msg.ApiKeyConnect =>
      some (m.connect_to_api env)
  | Msg.ApiKeyDisconnect =>
      some ({ m with websocket_task := none }, true, [])
  | Msg.UpdateSymbolToTrack symbol =>
      some ({ m with symbol_to_add := symbol }, true, [])
  | Msg.TrackSymbol =>
      if m.symbol_to_add = "" then
        some (m, false, [])
      else
        let symbol_to_add := m.symbol_to_add
        let m2 : Model :=
          { m with state := m.state.add_symbol symbol_to_add, symbol_to_add := "" }
        let sends :=
          if m2.websocket_task.isSome then
            [Effect.Send (Request.Subscribe symbol_to_add)]
          else []
        some (m2, true, sends ++ m2.persist_state)
  | Msg.UnTrackSymbolAtIdx idx =>
      match m.state.untrack_symbol idx with
      | none => none
      | some (result, state2) =>
          let m2 : Model := { m with state := state2 }
          let sends :=
            if result.is_last && m2.websocket_task.isSome then
              [Effect.Send (Request.Unsubscribe result.symbol)]
            else []
          some (m2, true, sends ++ m2.persist_state)
  | Msg.WsIncoming data =>
      match data with
      | Except.ok ws_message =>
          let log := [Effect.LogInfo ws_message]
          match ws_message with
          | WsMessage.Error message =>
              if message = "Invalid symbol" then
                match m.state.last_added with
                | some last_added_ticker =>
                    let prompt := [Effect.Confirm (invalid_symbol_prompt last_added_ticker)]
                    if env.confirm_answer then
                      let m2 : Model := { m with state := m.state.remove_last_added }
                      some (m2, true, log ++ prompt ++ m2.persist_state)
                    else
                      some (m, true, log ++ prompt)
                | none => some (m, true, log)
              else
                some (m, true, log)
          | WsMessage.Trade tickers_data =>
              let m2 : Model := { m with state := tickers_data.foldl State.add_history m.state }
              some (m2, true, log ++ m2.persist_state)
          | WsMessage.Ping => some (m, false, log)
      | Except.error sucks =>
          some (m, false, [Effect.LogError sucks])
  | Msg.WsOpened =>
      if m.websocket_task.isSome then
        some (m, true, m.state.tracked.map (fun t => Effect.Send (Request.Subscribe t)))
      else
        some (m, true, [Effect.Alert no_ws_alert])
  | Msg.WsDead =>
      if env.confirm_answer then
        let r := m.connect_to_api env
        some (r.1, r.2.1, [Effect.Confirm ws_dead_prompt] ++ r.2.2)
      else
        some ({ m with websocket_task := none }, true, [Effect.Confirm ws_dead_prompt])
  | Msg.Nope => some (m, true, [])

/-- The default state built when nothing was restored from storage. -/
def initial_state : State :=
  { api_key := "", tracked := [], history := TickerHistory.new }

/-- A freshly created model (storage available, nothing restored). -/
def initial_model : Model :=
  { storage_available := true
    symbol_to_add := ""
    state := initial_state
    websocket_task := none }

/-- The websocket requests among a list of effects, in emission order. -/
def sent_requests (effs : List Effect) : List Request :=
  effs.filterMap (fun e => match e with | Effect.Send r => some r | _ => none)

/-- The confirmation prompts among a list of effects, in emission order. -/
def confirm_prompts (effs : List Effect) : List String :=
  effs.filterMap (fun e => match e with | Effect.Confirm s => some s | _ => none)

/-! ### Lemmas about `TickerHistory.insert` -/

theorem insert_get_new (h : TickerHistory) (t : TickerInfo)
    (h0 : h.get t.symbol = none) : (h.insert t).get t.symbol = some [t] := by
  have h0' : h.symbol_to_history t.symbol = none := h0
  simp [TickerHistory.insert, TickerHistory.get, h0']

theorem insert_get_cons (h : TickerHistory) (t : TickerInfo) (q : List TickerInfo)
    (hq : h.get t.symbol = some q) (hlen : q.length ≤ 25) :
    (h.insert t).get t.symbol = some ((t :: q).take 25) := by
  have hq' : h.symbol_to_history t.symbol = some q := hq
  have hrep : (h.insert t).get t.symbol =
      some (if (t :: q).length > TickerHistory.MAX_HISTORY then (t :: q).dropLast
            else (t :: q)) := by
    simp [TickerHistory.insert, TickerHistory.get, hq']
  rw [hrep]
  split
  · next hgt =>
      have h25 : q.length = 25 := by
        simp [TickerHistory.MAX_HISTORY] at hgt
        omega
      rw [List.dropLast_eq_take]
      simp [h25]
  · next hle =>
      have hlen2 : (t :: q).length ≤ 25 := by
        simp [TickerHistory.MAX_HISTORY] at hle
        simpa using hle
      rw [List.take_of_length_le hlen2]

theorem take_append_take {α : Type} (a b : List α) (n : Nat) :
    (a ++ b.take n).take n = (a ++ b).take n := by
  rw [List.take_append_eq_append_take, List.take_append_eq_append_take, List.take_take,
    Nat.min_eq_left (Nat.sub_le n a.length)]

theorem foldl_insert_get (s : String) (recs : List TickerInfo) :
    ∀ (h : TickerHistory) (q : List TickerInfo),
      (∀ r ∈ recs, r.symbol = s) → h.get s = some q → q.length ≤ 25 →
      (recs.foldl TickerHistory.insert h).get s = some ((recs.reverse ++ q).take 25) := by
  induction recs with
  | nil =>
      intro h q _ hq hlen
      simpa [List.take_of_length_le hlen] using hq
  | cons r rest ih =>
      intro h q hsym hq hlen
      have hr : r.symbol = s := hsym r (by simp)
      have hcons : (h.insert r).get s = some ((r :: q).take 25) := by
        rw [← hr] at hq ⊢
        exact insert_get_cons h r q hq hlen
      have hlen2 : ((r :: q).take 25).length ≤ 25 := by
        simp
      have hrest := ih (h.insert r) ((r :: q).take 25)
        (fun x hx => hsym x (List.mem_cons_of_mem r hx)) hcons hlen2
      rw [List.foldl_cons, hrest, take_append_take]
      simp

/-- C1: after any sequence of inserts for one symbol (starting with no entry
for it), the stored sequence is exactly the reversal of the inserted records
truncated to the 25 most recent — most recently inserted first, ordered purely
by insertion — and its length is `min 25 n`, never exceeding 25. -/
theorem history_insert_spec (h0 : TickerHistory) (s : String) (recs : List TickerInfo)
    (hsym : ∀ r ∈ recs, r.symbol = s) (h0s : h0.get s = none) (hne : recs ≠ []) :
    (recs.foldl TickerHistory.insert h0).get s = some (recs.reverse.take 25) ∧
    (recs.reverse.take 25).length = min 25 recs.length := by
  constructor
  · match recs, hne with
    | r :: rest, _ =>
      have hr : r.symbol = s := hsym r (by simp)
      have h1 : (h0.insert r).get s = some [r] := by
        rw [← hr] at h0s ⊢
        exact insert_get_new h0 r h0s
      have hrest := foldl_insert_get s rest (h0.insert r) [r]
        (fun x hx => hsym x (List.mem_cons_of_mem r hx)) h1 (by simp)
      rw [List.foldl_cons, hrest]
      simp
  · simp

def rec_t5 : TickerInfo := { symbol := "S", price := 1, volume := 1, time := 5 }

def rec_t3 : TickerInfo := { symbol := "S", price := 1, volume := 1, time := 3 }

def rec_t10 : TickerInfo := { symbol := "S", price := 1, volume := 1, time := 10 }

/-- Witness for C1 at the spec §8 example: inserting R(t=5), R(t=3), R(t=10)
for one symbol stores them in insertion order, newest first. -/
theorem history_insert_spec_witness :
    (∀ r ∈ [rec_t5, rec_t3, rec_t10], r.symbol = "S") ∧
    TickerHistory.new.get "S" = none ∧
    ([rec_t5, rec_t3, rec_t10] : List TickerInfo) ≠ [] ∧
    (([rec_t5, rec_t3, rec_t10].foldl TickerHistory.insert TickerHistory.new).get "S" =
        some ([rec_t5, rec_t3, rec_t10].reverse.take 25) ∧
      ([rec_t5, rec_t3, rec_t10].reverse.take 25).length =
        min 25 ([rec_t5, rec_t3, rec_t10] : List TickerInfo).length) :=
  ⟨by decide, rfl, by decide,
    history_insert_spec TickerHistory.new "S" [rec_t5, rec_t3, rec_t10]
      (by decide) rfl (by decide)⟩

/-! ### The tracked/history coherence invariant (C2) -/

/-- A symbol with zero remaining entries in the tracked list has no entry in
the history cache. -/
def history_invariant (st : State) : Prop :=
  ∀ s : String, s ∉ st.tracked → st.history.get s = none

theorem mem_eraseIdx_of_ne (l : List String) (idx : Nat) (a s : String)
    (hg : l.get? idx = some a) (hmem : s ∈ l) (hne : s ≠ a) :
    s ∈ l.eraseIdx idx := by
  rw [List.mem_eraseIdx_iff_getElem?]
  obtain ⟨i, hi⟩ := List.mem_iff_getElem?.mp hmem
  refine ⟨i, ?_, hi⟩
  intro hik
  subst hik
  rw [List.get?_eq_getElem?] at hg
  rw [hg] at hi
  exact hne (Option.some.inj hi).symm

theorem untrack_symbol_preserves_invariant (st : State) (idx : Nat)
    (res : UntrackResult) (st2 : State) (hinv : history_invariant st)
    (h : st.untrack_symbol idx = some (res, st2)) :
    history_invariant st2 := by
  unfold State.untrack_symbol at h
  cases hg : st.tracked.get? idx with
  | none => rw [hg] at h; exact absurd h (by simp)
  | some removed =>
      rw [hg] at h
      simp only [Option.some.injEq, Prod.mk.injEq] at h
      obtain ⟨-, hst2⟩ := h
      subst hst2
      intro s hs
      simp only at hs ⊢
      by_cases hsr : s = removed
      · subst hsr
        cases hb : ((st.tracked.eraseIdx idx).find? (fun t => t == s)).isNone with
        | true =>
            simp [TickerHistory.remove, TickerHistory.get]
        | false =>
            exfalso
            cases hfx : (st.tracked.eraseIdx idx).find? (fun t => t == s) with
            | none => rw [hfx] at hb; simp at hb
            | some x =>
                have hx : x = s := by
                  have := List.find?_some hfx
                  simpa using this
                exact hs (hx ▸ List.mem_of_find?_eq_some hfx)
      · have hnotmem : s ∉ st.tracked := by
          intro hmem
          exact hs (mem_eraseIdx_of_ne st.tracked idx removed s hg hmem hsr)
        have hnone := hinv s hnotmem
        cases hb : ((st.tracked.eraseIdx idx).find? (fun t => t == removed)).isNone with
        | true => simpa [TickerHistory.remove, TickerHistory.get, hsr] using hnone
        | false => simpa using hnone

/-- C2 (amended): `trackSymbol` and `untrackAt(index)` preserve the invariant
that a symbol with zero remaining tracked entries has no history entry.
(The original claim over all operations fails: confirmed invalid-symbol
removal pops the tracked entry without purging history, and trade insertion
stores ticks even for untracked symbols — see the counterexample.) -/
theorem track_untrack_preserve_history_invariant (m : Model) (env : Env)
    (hinv : history_invariant m.state) :
    (∀ idx m2 r effs, m.update env (Msg.UnTrackSymbolAtIdx idx) = some (m2, r, effs) →
      history_invariant m2.state) ∧
    (∀ m2 r effs, m.update env Msg.TrackSymbol = some (m2, r, effs) →
      history_invariant m2.state) := by
  constructor
  · intro idx m2 r effs h
    simp only [Model.update] at h
    cases hu : m.state.untrack_symbol idx with
    | none => rw [hu] at h; exact absurd h (by simp)
    | some p =>
        obtain ⟨res, st2⟩ := p
        rw [hu] at h
        simp only [Option.some.injEq, Prod.mk.injEq] at h
        obtain ⟨hm2, -, -⟩ := h
        subst hm2
        exact untrack_symbol_preserves_invariant m.state idx res st2 hinv hu
  · intro m2 r effs h
    simp only [Model.update] at h
    by_cases hemp : m.symbol_to_add = ""
    · rw [if_pos hemp] at h
      simp only [Option.some.injEq, Prod.mk.injEq] at h
      obtain ⟨hm2, -, -⟩ := h
      subst hm2
      exact hinv
    · rw [if_neg hemp] at h
      simp only [Option.some.injEq, Prod.mk.injEq] at h
      obtain ⟨hm2, -, -⟩ := h
      subst hm2
      intro s hs
      simp only [State.add_symbol, List.mem_append] at hs
      push_neg at hs
      exact hinv s hs.1

def c2w_model : Model :=
  { storage_available := true
    symbol_to_add := ""
    state := { api_key := "", tracked := ["AAPL"], history := TickerHistory.new }
    websocket_task := none }

def c2w_after : Model :=
  { c2w_model with
    state := { c2w_model.state with
                tracked := []
                history := c2w_model.state.history.remove "AAPL" } }

def c2_env : Env := { confirm_answer := true, connect_ok := true, connect_err := "" }

/-- Witness for the amended C2: untracking the only "AAPL" entry keeps the
invariant. -/
theorem track_untrack_preserve_history_invariant_witness :
    history_invariant c2w_after.state :=
  (track_untrack_preserve_history_invariant c2w_model c2_env (fun _ _ => rfl)).1
    0 c2w_after true [Effect.Persist] rfl

def zzzz_tick : TickerInfo := { symbol := "ZZZZ", price := 1, volume := 1, time := 0 }

def c2_m1 : Model := { initial_model with symbol_to_add := "ZZZZ" }

def c2_m2 : Model :=
  { c2_m1 with state := c2_m1.state.add_symbol "ZZZZ", symbol_to_add := "" }

def c2_m3 : Model := { c2_m2 with state := c2_m2.state.add_history zzzz_tick }

def c2_m4 : Model := { c2_m3 with state := c2_m3.state.remove_last_added }

/-- C2 counterexample: from the initial model, track "ZZZZ", receive a trade
for it, then receive an `Error "Invalid symbol"` frame and confirm the
removal. The tracked list is now empty but the history still holds the "ZZZZ"
entry, so the claimed invariant is violated after the confirmed removal. -/
theorem history_invariant_violated :
    initial_model.update c2_env (Msg.UpdateSymbolToTrack "ZZZZ") = some (c2_m1, true, []) ∧
    c2_m1.update c2_env Msg.TrackSymbol = some (c2_m2, true, [Effect.Persist]) ∧
    c2_m2.update c2_env (Msg.WsIncoming (Except.ok (WsMessage.Trade [zzzz_tick]))) =
      some (c2_m3, true, [Effect.LogInfo (WsMessage.Trade [zzzz_tick]), Effect.Persist]) ∧
    c2_m3.update c2_env (Msg.WsIncoming (Except.ok (WsMessage.Error "Invalid symbol"))) =
      some (c2_m4, true,
        [Effect.LogInfo (WsMessage.Error "Invalid symbol"),
         Effect.Confirm (invalid_symbol_prompt "ZZZZ"), Effect.Persist]) ∧
    c2_m4.state.tracked = [] ∧
    c2_m4.state.history.get "ZZZZ" = some [zzzz_tick] ∧
    ¬ history_invariant c2_m4.state := by
  refine ⟨rfl, rfl, rfl, rfl, rfl, rfl, ?_⟩
  intro hinv
  have hz := hinv "ZZZZ" (by
    intro hmem
    rw [show c2_m4.state.tracked = [] from rfl] at hmem
    exact List.not_mem_nil "ZZZZ" hmem)
  exact Option.noConfusion (show some [zzzz_tick] = none from hz)

/-! ### Effect-list helpers -/

theorem sent_requests_append (a b : List Effect) :
    sent_requests (a ++ b) = sent_requests a ++ sent_requests b := by
  simp [sent_requests]

theorem sent_requests_persist (m : Model) : sent_requests m.persist_state = [] := by
  unfold Model.persist_state
  cases m.storage_available <;> simp [sent_requests]

theorem find?_beq_isNone_iff (l : List String) (a : String) :
    (l.find? (fun t => t == a)).isNone = true ↔ a ∉ l := by
  rw [Option.isNone_iff_eq_none, List.find?_eq_none]
  constructor
  · intro h hmem
    exact h a hmem (by simp)
  · intro h x hx hbeq
    rw [beq_iff_eq] at hbeq
    subst hbeq
    exact h hx

/-! ### C3: invalid-symbol error frames -/

/-- C3: with a non-empty tracked list, an `Error` frame with message
"Invalid symbol" raises exactly one confirmation prompt referencing the
most recently added symbol; confirming pops that symbol from the tail (and
persists), declining changes nothing, and in neither case is any websocket
request sent; `Error` frames with any other message are logged only and
change no state. -/
theorem error_frame_spec (m : Model) (env : Env) (message last : String)
    (hlast : m.state.tracked.getLast? = some last) :
    (message = "Invalid symbol" →
      m.update env (Msg.WsIncoming (Except.ok (WsMessage.Error message))) =
        some (if env.confirm_answer then
                ({ m with state := m.state.remove_last_added }, true,
                  [Effect.LogInfo (WsMessage.Error message),
                   Effect.Confirm (invalid_symbol_prompt last)] ++ m.persist_state)
              else
                (m, true, [Effect.LogInfo (WsMessage.Error message),
                           Effect.Confirm (invalid_symbol_prompt last)]))) ∧
    (message ≠ "Invalid symbol" →
      m.update env (Msg.WsIncoming (Except.ok (WsMessage.Error message))) =
        some (m, true, [Effect.LogInfo (WsMessage.Error message)])) := by
  have hl : m.state.last_added = some last := hlast
  constructor
  · intro hmsg
    subst hmsg
    simp only [Model.update, hl, if_pos rfl]
    cases hc : env.confirm_answer <;> simp [Model.persist_state]
  · intro hmsg
    simp only [Model.update, if_neg hmsg]

def c3w_model : Model :=
  { storage_available := true
    symbol_to_add := ""
    state := { api_key := "k", tracked := ["ZZZZ"], history := TickerHistory.new }
    websocket_task := some () }

/-- Witness for C3 at the spec §8 example: last-added symbol "ZZZZ",
confirmation answered yes. -/
theorem error_frame_spec_witness :
    c3w_model.state.tracked.getLast? = some "ZZZZ" ∧
    c3w_model.update c2_env (Msg.WsIncoming (Except.ok (WsMessage.Error "Invalid symbol"))) =
      some (if c2_env.confirm_answer then
              ({ c3w_model with state := c3w_model.state.remove_last_added }, true,
                [Effect.LogInfo (WsMessage.Error "Invalid symbol"),
                 Effect.Confirm (invalid_symbol_prompt "ZZZZ")] ++ c3w_model.persist_state)
            else
              (c3w_model, true,
                [Effect.LogInfo (WsMessage.Error "Invalid symbol"),
                 Effect.Confirm (invalid_symbol_prompt "ZZZZ")])) :=
  ⟨rfl, (error_frame_spec c3w_model c2_env "Invalid symbol" "ZZZZ" rfl).1 rfl⟩

/-! ### C4: untracking by index -/

/-- C4: `untrackAt(index)` removes the entry at that position;
`wasLastOccurrence` holds iff no remaining entry equals the removed symbol;
the removed symbol's history is purged iff `wasLastOccurrence`, and an
`Unsubscribe` request is sent iff `wasLastOccurrence` and a connection is
live. -/
theorem untrack_at_spec (m : Model) (env : Env) (idx : Nat) (removed : String)
    (hg : m.state.tracked.get? idx = some removed) :
    ∃ m2 effs,
      m.update env (Msg.UnTrackSymbolAtIdx idx) = some (m2, true, effs) ∧
      m2.state.tracked = m.state.tracked.eraseIdx idx ∧
      (removed ∉ m.state.tracked.eraseIdx idx →
        m2.state.history = m.state.history.remove removed ∧
        sent_requests effs =
          if m.websocket_task.isSome then [Request.Unsubscribe removed] else []) ∧
      (removed ∈ m.state.tracked.eraseIdx idx →
        m2.state.history = m.state.history ∧ sent_requests effs = []) := by
  simp only [Model.update, State.untrack_symbol, hg]
  refine ⟨_, _, rfl, rfl, ?_, ?_⟩
  · intro hnot
    have hb : ((m.state.tracked.eraseIdx idx).find? (fun t => t == removed)).isNone = true :=
      (find?_beq_isNone_iff _ _).mpr hnot
    constructor
    · simp [hb]
    · rw [sent_requests_append, sent_requests_persist]
      cases hws : m.websocket_task <;> simp [hb, hws, sent_requests]
  · intro hmem
    have hb : ((m.state.tracked.eraseIdx idx).find? (fun t => t == removed)).isNone = false := by
      cases hx : ((m.state.tracked.eraseIdx idx).find? (fun t => t == removed)).isNone with
      | true => exact absurd hmem ((find?_beq_isNone_iff _ _).mp hx)
      | false => rfl
    constructor
    · simp [hb]
    · rw [sent_requests_append, sent_requests_persist]
      simp [hb, sent_requests]

def c4w_model : Model :=
  { storage_available := true
    symbol_to_add := ""
    state := { api_key := "", tracked := ["AAPL", "AAPL"],
               history := TickerHistory.new.insert { symbol := "AAPL", price := 1, volume := 1, time := 0 } }
    websocket_task := some () }

/-- Witness for C4 at the spec §8 example: with "AAPL" tracked twice,
`untrackAt(0)` is not the last occurrence, so history survives and no
`Unsubscribe` is sent. -/
theorem untrack_at_spec_witness :
    c4w_model.state.tracked.get? 0 = some "AAPL" ∧
    ∃ m2 effs,
      c4w_model.update c2_env (Msg.UnTrackSymbolAtIdx 0) = some (m2, true, effs) ∧
      m2.state.tracked = c4w_model.state.tracked.eraseIdx 0 ∧
      ("AAPL" ∉ c4w_model.state.tracked.eraseIdx 0 →
        m2.state.history = c4w_model.state.history.remove "AAPL" ∧
        sent_requests effs =
          if c4w_model.websocket_task.isSome then [Request.Unsubscribe "AAPL"] else []) ∧
      ("AAPL" ∈ c4w_model.state.tracked.eraseIdx 0 →
        m2.state.history = c4w_model.state.history ∧ sent_requests effs = []) :=
  ⟨rfl, untrack_at_spec c4w_model c2_env 0 "AAPL" rfl⟩

/-! ### C5: resubscription on transport open -/

/-- C5: on `WsOpened` with a live connection, exactly one `Subscribe` request
is emitted per tracked entry, in tracked-list order, with no deduplication:
the emitted requests are precisely `tracked.map Subscribe` and their number
equals the tracked list's length. -/
theorem ws_opened_spec (m : Model) (env : Env) (h : m.websocket_task.isSome = true) :
    m.update env Msg.WsOpened =
      some (m, true, m.state.tracked.map (fun t => Effect.Send (Request.Subscribe t))) ∧
    sent_requests (m.state.tracked.map (fun t => Effect.Send (Request.Subscribe t))) =
      m.state.tracked.map Request.Subscribe ∧
    (m.state.tracked.map (fun t => Effect.Send (Request.Subscribe t))).length =
      m.state.tracked.length := by
  refine ⟨?_, ?_, by simp⟩
  · simp [Model.update, h]
  · simp only [sent_requests, List.filterMap_map]
    induction m.state.tracked with
    | nil => rfl
    | cons x xs ih => simp [List.filterMap_cons] at ih ⊢; exact ih

def c5w_model : Model :=
  { storage_available := true
    symbol_to_add := ""
    state := { api_key := "", tracked := ["AAPL", "MSFT"], history := TickerHistory.new }
    websocket_task := some () }

/-- Witness for C5 at the spec §8 example: tracked `["AAPL","MSFT"]` yields
exactly the two `Subscribe` requests in that order. -/
theorem ws_opened_spec_witness :
    c5w_model.websocket_task.isSome = true ∧
    c5w_model.update c2_env Msg.WsOpened =
      some (c5w_model, true,
        c5w_model.state.tracked.map (fun t => Effect.Send (Request.Subscribe t))) ∧
    sent_requests (c5w_model.state.tracked.map (fun t => Effect.Send (Request.Subscribe t))) =
      c5w_model.state.tracked.map Request.Subscribe ∧
    (c5w_model.state.tracked.map (fun t => Effect.Send (Request.Subscribe t))).length =
      c5w_model.state.tracked.length :=
  ⟨rfl, ws_opened_spec c5w_model c2_env rfl⟩

/-! ### C6: transport-construction failure -/

/-- C6 (amended): when the transport cannot be constructed, an alert is
surfaced and the model is otherwise unchanged: a fresh connect from the
disconnected state leaves the connection slot empty, but a user-confirmed
retry after `WsDead` leaves the stale dead handle in the slot — the slot is
not cleared on failure. -/
theorem connect_failure_spec (m : Model) (env : Env) (hfail : env.connect_ok = false) :
    (m.websocket_task = none →
      m.update env Msg.ApiKeyConnect = some (m, false, [Effect.Alert env.connect_err])) ∧
    (env.confirm_answer = true →
      m.update env Msg.WsDead =
        some (m, false, [Effect.Confirm ws_dead_prompt, Effect.Alert env.connect_err])) := by
  constructor
  · intro hws
    simp [Model.update, Model.connect_to_api, hfail]
  · intro hc
    simp [Model.update, Model.connect_to_api, hfail, hc]

def c6_retry_env : Env := { confirm_answer := true, connect_ok := false, connect_err := "boom" }

/-- Witness for the amended C6: a fresh connect and a confirmed retry, both
failing transport construction, surface alerts without touching the model. -/
theorem connect_failure_spec_witness :
    c6_retry_env.connect_ok = false ∧
    ((initial_model.websocket_task = none →
        initial_model.update c6_retry_env Msg.ApiKeyConnect =
          some (initial_model, false, [Effect.Alert "boom"])) ∧
      (c6_retry_env.confirm_answer = true →
        initial_model.update c6_retry_env Msg.WsDead =
          some (initial_model, false, [Effect.Confirm ws_dead_prompt, Effect.Alert "boom"]))) :=
  ⟨rfl, connect_failure_spec initial_model c6_retry_env rfl⟩

def c6_dead_model : Model :=
  { storage_available := true
    symbol_to_add := ""
    state := { api_key := "k", tracked := [], history := TickerHistory.new }
    websocket_task := some () }

/-- C6 counterexample: after the websocket dies while a handle is held, a
confirmed retry whose transport construction fails alerts but leaves the old
handle in the connection slot — `websocket_task` is still `some`, not the
empty (Disconnected) slot the claim requires after a failed attempt. -/
theorem connect_failure_keeps_stale_handle :
    c6_dead_model.update c6_retry_env Msg.WsDead =
      some (c6_dead_model, false, [Effect.Confirm ws_dead_prompt, Effect.Alert "boom"]) ∧
    c6_dead_model.websocket_task ≠ none := by
  constructor
  · rfl
  · simp [c6_dead_model]

/-! ### C7: trade frames -/

/-- C7: a `Trade` frame folds each tick of the batch into the history cache
via `add_history`, in array order, and triggers exactly one persist after the
batch; a singleton batch for a symbol without history yields the entry
`[tick]` holding exactly that tick. -/
theorem trade_frame_spec (m : Model) (env : Env) (ticks : List TickerInfo)
    (hst : m.storage_available = true) :
    m.update env (Msg.WsIncoming (Except.ok (WsMessage.Trade ticks))) =
      some ({ m with state := ticks.foldl State.add_history m.state }, true,
            [Effect.LogInfo (WsMessage.Trade ticks), Effect.Persist]) ∧
    (∀ t : TickerInfo, ticks = [t] → m.state.history.get t.symbol = none →
      (ticks.foldl State.add_history m.state).history.get t.symbol = some [t]) := by
  constructor
  · simp [Model.update, Model.persist_state, hst]
  · intro t hticks hnone
    subst hticks
    simp only [List.foldl_cons, List.foldl_nil, State.add_history]
    exact insert_get_new m.state.history t hnone

def aapl_tick : TickerInfo :=
  { symbol := "AAPL", price := 101.5, volume := 10, time := 1690000000000 }

/-- Witness for C7 at the spec §8 example: the frame with the single tick
`s:"AAPL", p:101.5, v:10, t:1690000000000` stores exactly that record for
"AAPL" and persists once. -/
theorem trade_frame_spec_witness :
    initial_model.storage_available = true ∧
    (initial_model.update c2_env (Msg.WsIncoming (Except.ok (WsMessage.Trade [aapl_tick]))) =
        some ({ initial_model with
                  state := [aapl_tick].foldl State.add_history initial_model.state },
              true, [Effect.LogInfo (WsMessage.Trade [aapl_tick]), Effect.Persist]) ∧
      (∀ t : TickerInfo, [aapl_tick] = [t] →
        initial_model.state.history.get t.symbol = none →
        ([aapl_tick].foldl State.add_history initial_model.state).history.get t.symbol =
          some [t])) ∧
    ([aapl_tick].foldl State.add_history initial_model.state).history.get "AAPL" =
      some [aapl_tick] :=
  ⟨rfl, trade_frame_spec initial_model c2_env [aapl_tick] rfl, rfl⟩

/-! ### C8: undecodable frames -/

/-- C8: a frame whose payload fails to decode is logged and dropped: the model
is returned unchanged (session state, pending symbol and connection slot
included), `ShouldRender` is `false`, and the only effect is the error log —
no alert, no prompt, no send, no persist. -/
theorem decode_failure_spec (m : Model) (env : Env) (e : String) :
    m.update env (Msg.WsIncoming (Except.error e)) = some (m, false, [Effect.LogError e]) :=
  rfl

/-! ### C9: tracking the pending symbol -/

/-- C9: `TrackSymbol` with an empty pending text is a no-op (no list change,
no send, no persist, no render); with a non-empty pending text it appends the
symbol to the tracked list, clears the pending text, sends `Subscribe` for it
iff a connection is live, and persists the state (when storage is available). -/
theorem track_symbol_spec (m : Model) (env : Env) :
    m.update env Msg.TrackSymbol =
      some (if m.symbol_to_add = "" then (m, false, ([] : List Effect))
            else
              ({ m with state := m.state.add_symbol m.symbol_to_add, symbol_to_add := "" },
               true,
               (if m.websocket_task.isSome then
                  [Effect.Send (Request.Subscribe m.symbol_to_add)]
                else []) ++ m.persist_state)) := by
  by_cases hemp : m.symbol_to_add = "" <;> simp [Model.update, Model.persist_state, hemp]

/-! ### C10: invalid-symbol error with nothing tracked -/

/-- C10: with an empty tracked list, an `Error "Invalid symbol"` frame raises
no confirmation prompt and leaves the model unchanged — the last-added lookup
is `none`, so the removal branch is never entered and only the info log is
emitted. -/
theorem error_frame_empty_tracked (m : Model) (env : Env)
    (h : m.state.tracked = []) :
    m.update env (Msg.WsIncoming (Except.ok (WsMessage.Error "Invalid symbol"))) =
      some (m, true, [Effect.LogInfo (WsMessage.Error "Invalid symbol")]) := by
  have hl : m.state.last_added = none := by
    simp [State.last_added, h]
  simp [Model.update, hl]

/-- Witness for C10: the initial model (nothing tracked) ignores the
invalid-symbol error, even with the confirm answer set to yes. -/
theorem error_frame_empty_tracked_witness :
    initial_model.state.tracked = [] ∧
    initial_model.update c2_env (Msg.WsIncoming (Except.ok (WsMessage.Error "Invalid symbol"))) =
      some (initial_model, true, [Effect.LogInfo (WsMessage.Error "Invalid symbol")]) :=
  ⟨rfl, error_frame_empty_tracked initial_model c2_env rfl⟩

end FinnhubWs
